import Mathlib

/-!
Shallow embedding of the update-orchestration engine of
`pypi_updater/updater.py` and the CLI driver `update_packages.py`.

External collaborators (requirements parsing, registry lookups, the
compilation subprocess, operator input) are modelled as explicit inputs:
* the file-mutation collaborator `parser.update_requirement_version`
  becomes a function `MutFn`;
* the output of `check_for_updates` (a dict file-path -> list of
  `PackageInfo`) becomes a `List (String × List PackageInfo)` input;
* operator responses to `input()` become a list of answer strings,
  consumed in prompt order;
* the compilation subprocess outcome becomes a `CompileOutcome` input.

Observable side effects (prompts, file mutations, compile invocations)
are recorded in an event trace.  The Python `exit(0)` on the interactive
quit answer is modelled by the `Except` error branch carrying the process
exit status together with the results and events accumulated so far.
-/

namespace PyPIUpdater

/-- The correlation record produced by the registry client
(`pypi_client.PackageInfo`): package name, currently declared version and
the registry's latest version (absent when the lookup failed). -/
structure PackageInfo where
  name : String
  current_version : String
  latest_version : Option String
deriving DecidableEq

/-- Modelled from the spec: the derived `has_update` flag of a Package
Update Candidate, computed by the registry-correlation layer
(`pypi_client.py`, absent from the sources): `latest_version` is defined
AND `latest_version != current_version` (strict string inequality). -/
def PackageInfo.has_update (p : PackageInfo) : Bool :=
  match p.latest_version with
  | none => false
  | some v => v != p.current_version

/-- The latest-version string as the updater reads `pkg_info.latest_version`
(always present for candidates that reach the Decision Protocol). -/
def PackageInfo.latestStr (p : PackageInfo) : String :=
  p.latest_version.getD ""

/-- `updater.UpdateResult`: the Outcome record of one processed candidate. -/
structure UpdateResult where
  package_name : String
  old_version : String
  new_version : String
  file_path : String
  success : Bool
  error_message : Option String
deriving DecidableEq

/-- `updater.UpdateSummary` (without the derived `success_rate` float). -/
structure UpdateSummary where
  total_packages : Nat
  updated_packages : Nat
  failed_packages : Nat
  skipped_packages : Nat
  updates : List UpdateResult
deriving DecidableEq

/-- Observable side effects of a run, in order of occurrence. -/
inductive Event where
  | prompt (name cur latest : String)
  | mutate (file pkg ver : String)
  | compile (ok : Bool)
deriving DecidableEq

def Event.isPrompt : Event → Bool
  | .prompt _ _ _ => true
  | _ => false

def Event.isMutate : Event → Bool
  | .mutate _ _ _ => true
  | _ => false

def Event.isCompile : Event → Bool
  | .compile _ => true
  | _ => false

/-- The file-mutation collaborator
`parser.update_requirement_version(file_path, name, version) -> bool`. -/
abbrev MutFn := String → String → String → Bool

/-- What the compilation subprocess did, as distinguished by
`_compile_requirements`'s branches. -/
inductive CompileOutcome where
  | missingScript
  | exitZero
  | exitNonZero
  | timeout
  | raised
deriving DecidableEq

/-- `PyPIUpdater._compile_requirements`: returns `True` exactly when the
script exists and exits with return code 0; every other branch (missing
script, non-zero exit, timeout, exception) returns `False`. -/
def compile_requirements : CompileOutcome → Bool
  | .exitZero => true
  | _ => false

/-- Python truthiness of an `Optional[str]`: `None` and `""` are falsy.
Used by the summary fold `not r.success and r.error_message`. -/
def pyTruthy : Option String → Bool
  | none => false
  | some s => s != ""

/-- Python's `str.lower()` as applied to the operator's response
(character-wise lowercasing; the protocol only compares against the
ASCII letters `q` and `y`). -/
def strLower (s : String) : String :=
  ⟨s.data.map Char.toLower⟩

/-- The apply step of `_update_single_package` (lines 209-233): call the
file-mutation collaborator once and build the applied or failed Outcome.
`evs` is the event prefix (the prompt, in interactive mode). -/
def applyUpdate (mf : MutFn) (file_path : String) (pkg : PackageInfo)
    (evs : List Event) (answers : List String) :
    Except (Nat × List Event) (UpdateResult × List Event × List String) :=
  if mf file_path pkg.name pkg.latestStr then
    .ok (⟨pkg.name, pkg.current_version, pkg.latestStr, file_path, true, none⟩,
      evs ++ [Event.mutate file_path pkg.name pkg.latestStr], answers)
  else
    .ok (⟨pkg.name, pkg.current_version, pkg.latestStr, file_path, false,
      some ("Failed to update " ++ pkg.name ++ " in " ++ file_path)⟩,
      evs ++ [Event.mutate file_path pkg.name pkg.latestStr], answers)

/-- `PyPIUpdater._update_single_package`: dry-run returns an applied-style
Outcome with no side effect; interactive mode consumes one operator answer
(`q` quits the process with status 0 — Python `exit(0)` —, anything other
than `y` records the "Skipped by user" Outcome); otherwise the update is
applied unconditionally. -/
def update_single_package (mf : MutFn) (file_path : String)
    (pkg : PackageInfo) (dry_run interactive : Bool) (answers : List String) :
    Except (Nat × List Event) (UpdateResult × List Event × List String) :=
  if dry_run then
    .ok (⟨pkg.name, pkg.current_version, pkg.latestStr, file_path, true, none⟩,
      [], answers)
  else if interactive then
    let resp := answers.headD ""
    let rest := answers.tail
    let pev := Event.prompt pkg.name pkg.current_version pkg.latestStr
    if strLower resp == "q" then
      .error (0, [pev])
    else if strLower resp != "y" then
      .ok (⟨pkg.name, pkg.current_version, pkg.latestStr, file_path, false,
        some "Skipped by user"⟩, [pev], rest)
    else
      applyUpdate mf file_path pkg [pev] rest
  else
    applyUpdate mf file_path pkg [] answers

/-- Insertion into the `updated_files` set (Python `set.add`). -/
def setInsert (s : List String) (x : String) : List String :=
  if x ∈ s then s else s ++ [x]

/-- The per-candidate loop of `update_packages` (lines 139-146): run the
Decision Protocol over each candidate in order, collect the Outcomes, and
accumulate `updated_files` from the successful non-dry-run candidates.
A quit aborts the loop, carrying the exit status, the Outcomes of the
already-processed candidates, and the events that occurred. -/
def processLoop (mf : MutFn) (dry_run interactive : Bool) :
    List (String × PackageInfo) → List String → List String →
    Except (Nat × List UpdateResult × List Event)
      (List UpdateResult × List String × List Event × List String)
  | [], ufs, answers => .ok ([], ufs, [], answers)
  | (fp, pkg) :: rest, ufs, answers =>
    match update_single_package mf fp pkg dry_run interactive answers with
    | .error (c, evs) => .error (c, [], evs)
    | .ok (r, evs, ans1) =>
      let ufs1 := if r.success && !dry_run then setInsert ufs fp else ufs
      match processLoop mf dry_run interactive rest ufs1 ans1 with
      | .error (c, rs, evs2) => .error (c, r :: rs, evs ++ evs2)
      | .ok (rs, ufs2, evs2, ans2) => .ok (r :: rs, ufs2, evs ++ evs2, ans2)

/-- Lines 122-127 of `update_packages`: flatten all updatable candidates
across all files, preserving file-then-package order. -/
def flattenUpdates (update_info : List (String × List PackageInfo)) :
    List (String × PackageInfo) :=
  update_info.flatMap fun fps =>
    (fps.2.filter fun p => p.has_update).map fun p => (fps.1, p)

/-- `updated = sum(1 for r in update_results if r.success)`. -/
def countUpdated (rs : List UpdateResult) : Nat :=
  (rs.filter fun r => r.success).length

/-- `failed = sum(1 for r in update_results if not r.success and r.error_message)`. -/
def countFailed (rs : List UpdateResult) : Nat :=
  (rs.filter fun r => !r.success && pyTruthy r.error_message).length

/-- Lines 154-159 of `update_packages`: fold the Outcomes into the
Summary; `skipped` is derived as `total - updated - failed`. -/
def mkSummary (rs : List UpdateResult) : UpdateSummary :=
  ⟨rs.length, countUpdated rs, countFailed rs,
    rs.length - countUpdated rs - countFailed rs, rs⟩

/-- `PyPIUpdater.update_packages`, downstream of `check_for_updates`
(whose result is the `update_info` input): early zero-summary returns,
the per-candidate loop, the single guarded compile invocation, and the
summary fold.  An `.error` value is the process exit performed inside the
loop (interactive quit). -/
def update_packages (mf : MutFn)
    (update_info : List (String × List PackageInfo))
    (dry_run auto_compile interactive : Bool) (answers : List String)
    (comp : CompileOutcome) :
    Except (Nat × List UpdateResult × List Event)
      (UpdateSummary × List Event) :=
  if update_info.isEmpty then .ok (⟨0, 0, 0, 0, []⟩, [])
  else
    let updates_to_perform := flattenUpdates update_info
    if updates_to_perform.isEmpty then .ok (⟨0, 0, 0, 0, []⟩, [])
    else
      match processLoop mf dry_run interactive updates_to_perform [] answers with
      | .error e => .error e
      | .ok (results, updated_files, events, _) =>
        let compileEvs :=
          if auto_compile && !updated_files.isEmpty && !dry_run then
            [Event.compile (compile_requirements comp)]
          else []
        .ok (mkSummary results, events ++ compileEvs)

/-- The summary component of an `update_packages` result, when the run
returned one. -/
def summaryOf :
    Except (Nat × List UpdateResult × List Event)
      (UpdateSummary × List Event) → Option UpdateSummary
  | .ok (s, _) => some s
  | .error _ => none

/-- The CLI driver `update_packages.py main` on its normal paths: with
`--check-only` it only reads (exit 0, no mutation events); otherwise it
runs `update_packages` with `auto_compile = not no_compile` and
`interactive = not non_interactive` and exits 1 exactly when
`summary.failed_packages > 0`.  Returns the process exit status and the
event trace. -/
def cliRun (mf : MutFn) (update_info : List (String × List PackageInfo))
    (check_only dry_run no_compile non_interactive : Bool)
    (answers : List String) (comp : CompileOutcome) : Nat × List Event :=
  if check_only then (0, [])
  else
    match update_packages mf update_info dry_run (!no_compile)
        (!non_interactive) answers comp with
    | .error (c, _, evs) => (c, evs)
    | .ok (s, evs) => (if s.failed_packages > 0 then 1 else 0, evs)

/-- The Outcome the dry-run branch records for a candidate. -/
def dryOutcome : String × PackageInfo → UpdateResult
  | (fp, pkg) => ⟨pkg.name, pkg.current_version, pkg.latestStr, fp, true, none⟩

/-- The Outcome the apply step records when the mutation collaborator
reports failure. -/
def failedOutcome (fp : String) (pkg : PackageInfo) : UpdateResult :=
  ⟨pkg.name, pkg.current_version, pkg.latestStr, fp, false,
    some ("Failed to update " ++ pkg.name ++ " in " ++ fp)⟩

/-- Concrete collaborators and candidates used in witnesses. -/
def mutTrue : MutFn := fun _ _ _ => true

def mutFalse : MutFn := fun _ _ _ => false

def pkgA : PackageInfo := ⟨"requests", "2.28.0", some "2.31.0"⟩

def pkgB : PackageInfo := ⟨"click", "8.0.0", some "8.1.7"⟩

def pkgC : PackageInfo := ⟨"flask", "3.0.0", some "3.0.0"⟩

end PyPIUpdater

namespace PyPIUpdater

/-! ### Helper lemmas about the loop and the counters -/

theorem setInsert_isEmpty (s : List String) (x : String) :
    (setInsert s x).isEmpty = false := by
  unfold setInsert
  split
  · rename_i hx
    cases s with
    | nil => simp at hx
    | cons a t => rfl
  · cases s <;> rfl

theorem processLoop_nil (mf : MutFn) (dr int : Bool) (ufs answers : List String) :
    processLoop mf dr int [] ufs answers = .ok ([], ufs, [], answers) := rfl

theorem processLoop_dry (mf : MutFn) (int : Bool)
    (cands : List (String × PackageInfo)) (ufs answers : List String) :
    processLoop mf true int cands ufs answers
      = .ok (cands.map dryOutcome, ufs, [], answers) := by
  induction cands generalizing ufs answers with
  | nil => rfl
  | cons c rest ih =>
    obtain ⟨fp, pkg⟩ := c
    simp [processLoop, update_single_package, ih, dryOutcome]

theorem processLoop_ok_length (mf : MutFn) (dr int : Bool)
    (cands : List (String × PackageInfo)) (ufs answers : List String)
    (rs : List UpdateResult) (ufs2 : List String) (evs : List Event)
    (ans2 : List String)
    (h : processLoop mf dr int cands ufs answers = .ok (rs, ufs2, evs, ans2)) :
    rs.length = cands.length := by
  induction cands generalizing ufs answers rs ufs2 evs ans2 with
  | nil =>
    simp only [processLoop] at h
    cases h
    rfl
  | cons c rest ih =>
    obtain ⟨fp, pkg⟩ := c
    simp only [processLoop] at h
    cases h1 : update_single_package mf fp pkg dr int answers with
    | error e =>
      rw [h1] at h
      cases h
    | ok x =>
      obtain ⟨r, evs1, ans1⟩ := x
      rw [h1] at h
      simp only at h
      cases h2 : processLoop mf dr int rest
          (if r.success && !dr then setInsert ufs fp else ufs) ans1 with
      | error e =>
        rw [h2] at h
        obtain ⟨c0, rs0, evs0⟩ := e
        simp at h
      | ok y =>
        obtain ⟨rs0, ufs0, evs0, ans0⟩ := y
        rw [h2] at h
        simp only [Except.ok.injEq, Prod.mk.injEq] at h
        obtain ⟨hrs, -, -, -⟩ := h
        subst hrs
        simpa using ih _ _ _ _ _ _ h2

theorem processLoop_append_error (mf : MutFn) (dr int : Bool)
    (l1 l2 : List (String × PackageInfo)) (ufs answers : List String)
    (rs : List UpdateResult) (ufs1 : List String) (evs : List Event)
    (ans1 : List String) (c : Nat) (rs2 : List UpdateResult) (evs2 : List Event)
    (h1 : processLoop mf dr int l1 ufs answers = .ok (rs, ufs1, evs, ans1))
    (h2 : processLoop mf dr int l2 ufs1 ans1 = .error (c, rs2, evs2)) :
    processLoop mf dr int (l1 ++ l2) ufs answers
      = .error (c, rs ++ rs2, evs ++ evs2) := by
  induction l1 generalizing ufs answers rs ufs1 evs ans1 with
  | nil =>
    simp only [processLoop] at h1
    cases h1
    simpa using h2
  | cons hd tl ih =>
    obtain ⟨fp, pkg⟩ := hd
    simp only [processLoop, List.cons_append] at h1 ⊢
    cases hu : update_single_package mf fp pkg dr int answers with
    | error e =>
      rw [hu] at h1
      cases h1
    | ok x =>
      obtain ⟨r, evsa, ansa⟩ := x
      rw [hu] at h1
      simp only at h1 ⊢
      cases hl : processLoop mf dr int tl
          (if r.success && !dr then setInsert ufs fp else ufs) ansa with
      | error e =>
        rw [hl] at h1
        obtain ⟨c0, rs0, evs0⟩ := e
        simp at h1
      | ok y =>
        obtain ⟨rs0, ufs0, evs0, ans0⟩ := y
        rw [hl] at h1
        simp only [Except.ok.injEq, Prod.mk.injEq] at h1
        obtain ⟨hrs, hufs, hevs, hans⟩ := h1
        subst hrs hufs hevs hans
        simp only [List.append_eq]
        rw [ih _ _ _ _ _ _ hl h2]
        simp

theorem processLoop_ufs (mf : MutFn) (int : Bool)
    (cands : List (String × PackageInfo)) (ufs answers : List String)
    (rs : List UpdateResult) (ufs2 : List String) (evs : List Event)
    (ans2 : List String)
    (h : processLoop mf false int cands ufs answers = .ok (rs, ufs2, evs, ans2)) :
    ufs2.isEmpty = (ufs.isEmpty && rs.all fun r => !r.success) := by
  induction cands generalizing ufs answers rs ufs2 evs ans2 with
  | nil =>
    simp only [processLoop] at h
    cases h
    simp
  | cons c rest ih =>
    obtain ⟨fp, pkg⟩ := c
    simp only [processLoop] at h
    cases h1 : update_single_package mf fp pkg false int answers with
    | error e =>
      rw [h1] at h
      cases h
    | ok x =>
      obtain ⟨r, evs1, ans1⟩ := x
      rw [h1] at h
      simp only at h
      cases h2 : processLoop mf false int rest
          (if r.success && !false then setInsert ufs fp else ufs) ans1 with
      | error e =>
        rw [h2] at h
        obtain ⟨c0, rs0, evs0⟩ := e
        simp at h
      | ok y =>
        obtain ⟨rs0, ufs0, evs0, ans0⟩ := y
        rw [h2] at h
        simp only [Except.ok.injEq, Prod.mk.injEq] at h
        obtain ⟨hrs, hufs, -, -⟩ := h
        subst hrs hufs
        have hx := ih _ _ _ _ _ _ h2
        cases hs : r.success with
        | true =>
          rw [hs] at hx
          simp only [Bool.not_false, Bool.and_true, if_true, setInsert_isEmpty,
            Bool.false_and] at hx
          simp [hx, hs]
        | false =>
          rw [hs] at hx
          simp only [Bool.not_false, Bool.and_true, Bool.false_and, if_false,
            Bool.false_eq_true, if_neg] at hx
          simp only [List.all_cons, hs, Bool.not_false, Bool.true_and]
          exact hx

end PyPIUpdater

namespace PyPIUpdater

theorem update_single_package_ok_shape (mf : MutFn) (fp : String)
    (pkg : PackageInfo) (dr int : Bool) (answers : List String)
    (r : UpdateResult) (evs : List Event) (ans1 : List String)
    (h : update_single_package mf fp pkg dr int answers = .ok (r, evs, ans1)) :
    (r.success = true ↔ r.error_message = none)
      ∧ r.package_name = pkg.name
      ∧ r.old_version = pkg.current_version
      ∧ r.new_version = pkg.latestStr
      ∧ r.file_path = fp
      ∧ evs.all (fun e => !e.isCompile) = true := by
  simp only [update_single_package, applyUpdate] at h
  split at h
  · cases h
    simp [Event.isCompile]
  · split at h
    · split at h
      · cases h
      · split at h
        · cases h
          simp [Event.isCompile]
        · split at h
          · cases h
            simp [Event.isPrompt, Event.isCompile]
          · cases h
            simp [Event.isPrompt, Event.isCompile]
    · split at h
      · cases h
        simp [Event.isCompile]
      · cases h
        simp [Event.isCompile]

theorem processLoop_no_compile (mf : MutFn) (dr int : Bool)
    (cands : List (String × PackageInfo)) (ufs answers : List String)
    (rs : List UpdateResult) (ufs2 : List String) (evs : List Event)
    (ans2 : List String)
    (h : processLoop mf dr int cands ufs answers = .ok (rs, ufs2, evs, ans2)) :
    evs.all (fun e => !e.isCompile) = true := by
  induction cands generalizing ufs answers rs ufs2 evs ans2 with
  | nil =>
    simp only [processLoop] at h
    cases h
    rfl
  | cons c rest ih =>
    obtain ⟨fp, pkg⟩ := c
    simp only [processLoop] at h
    cases h1 : update_single_package mf fp pkg dr int answers with
    | error e =>
      rw [h1] at h
      cases h
    | ok x =>
      obtain ⟨r, evs1, ans1⟩ := x
      rw [h1] at h
      simp only at h
      cases h2 : processLoop mf dr int rest
          (if r.success && !dr then setInsert ufs fp else ufs) ans1 with
      | error e =>
        rw [h2] at h
        obtain ⟨c0, rs0, evs0⟩ := e
        simp at h
      | ok y =>
        obtain ⟨rs0, ufs0, evs0, ans0⟩ := y
        rw [h2] at h
        simp only [Except.ok.injEq, Prod.mk.injEq] at h
        obtain ⟨-, -, hevs, -⟩ := h
        subst hevs
        have ha := (update_single_package_ok_shape _ _ _ _ _ _ _ _ _ h1).2.2.2.2.2
        have hb := ih _ _ _ _ _ _ h2
        simp [List.all_append, ha, hb]

theorem countUpdated_add_countFailed_le (rs : List UpdateResult) :
    countUpdated rs + countFailed rs ≤ rs.length := by
  induction rs with
  | nil => simp [countUpdated, countFailed]
  | cons r t ih =>
    simp only [countUpdated, countFailed, List.filter_cons, List.length_cons] at *
    cases hs : r.success with
    | true => simp only [hs, Bool.not_true, Bool.false_and, if_false]; simp; omega
    | false =>
      cases hm : pyTruthy r.error_message with
      | true => simp only [hs, Bool.not_false, Bool.true_and, hm]; simp; omega
      | false => simp only [hs, Bool.not_false, Bool.true_and, hm]; simp; omega

end PyPIUpdater

namespace PyPIUpdater

/-! ### Claim theorems -/

/-- C1: the spec says the `failed` counter excludes Outcomes whose
error message is the user-skip marker "Skipped by user" and that such
Outcomes land in `skipped`.  The code counts every unsuccessful Outcome
with a set error message — the user-skip marker included — as failed:
on one updatable candidate skipped interactively with answer `n` the
Summary is `total=1, updated=0, failed=1, skipped=0`, with the single
Outcome carrying `error_message = "Skipped by user"`. -/
theorem user_skip_counted_as_failed :
    update_packages mutTrue [("base.in", [pkgA])] false true true ["n"] .exitZero
      = .ok (⟨1, 0, 1, 0,
          [⟨"requests", "2.28.0", "2.31.0", "base.in", false,
            some "Skipped by user"⟩]⟩,
        [Event.prompt "requests" "2.28.0" "2.31.0"]) := by rfl

/-- C2: every Summary returned by `update_packages` satisfies
`total = updated + failed + skipped`, and `updated` is the number of
Outcomes with `success = true`. -/
theorem summary_counter_invariant (mf : MutFn)
    (update_info : List (String × List PackageInfo))
    (dr ac int : Bool) (answers : List String) (comp : CompileOutcome)
    (s : UpdateSummary) (evs : List Event)
    (h : update_packages mf update_info dr ac int answers comp = .ok (s, evs)) :
    s.total_packages
        = s.updated_packages + s.failed_packages + s.skipped_packages
      ∧ s.updated_packages = countUpdated s.updates := by
  simp only [update_packages] at h
  split at h
  · cases h
    exact ⟨rfl, rfl⟩
  · split at h
    · cases h
      exact ⟨rfl, rfl⟩
    · cases hp : processLoop mf dr int (flattenUpdates update_info) [] answers with
      | error e =>
        rw [hp] at h
        cases h
      | ok x =>
        obtain ⟨results, ufs, events, ansx⟩ := x
        rw [hp] at h
        simp only [Except.ok.injEq, Prod.mk.injEq] at h
        obtain ⟨hs, -⟩ := h
        subst hs
        constructor
        · have := countUpdated_add_countFailed_le results
          simp only [mkSummary]
          omega
        · rfl

theorem summary_counter_invariant_witness :
    (1 : Nat) = 1 + 0 + 0
      ∧ (1 : Nat) = countUpdated
          [⟨"requests", "2.28.0", "2.31.0", "base.in", true, none⟩] :=
  summary_counter_invariant mutTrue [("base.in", [pkgA])] false true false []
    .exitZero
    ⟨1, 1, 0, 0, [⟨"requests", "2.28.0", "2.31.0", "base.in", true, none⟩]⟩
    [Event.mutate "base.in" "requests" "2.31.0", Event.compile true] (by rfl)

/-- C3 counterexample: answering `q` at the first prompt makes the run
terminate with exit status 0 — Python `exit(0)` — not with a non-zero
status as the claim states (the rest of the claim holds: no further
candidate is processed and no Summary is returned). -/
theorem quit_exits_with_status_zero :
    update_packages mutTrue [("base.in", [pkgA])] false true true ["q"] .exitZero
      = .error (0, [], [Event.prompt "requests" "2.28.0" "2.31.0"]) := by rfl

/-- C3 (amended): when the operator answers quit at the prompt for the
Nth updatable candidate in interactive non-dry-run mode, the run
terminates the process immediately with exit status zero: exactly N-1
candidates have been processed, no events beyond their prompts and
mutations plus the Nth prompt occur, and no Summary is returned. -/
theorem quit_terminates_run (mf : MutFn)
    (update_info : List (String × List PackageInfo)) (ac : Bool)
    (comp : CompileOutcome) (cands1 : List (String × PackageInfo))
    (fp : String) (pkg : PackageInfo) (cands2 : List (String × PackageInfo))
    (answers : List String) (results : List UpdateResult) (ufs : List String)
    (events : List Event) (a : String) (ans1 : List String)
    (hflat : flattenUpdates update_info = cands1 ++ (fp, pkg) :: cands2)
    (hloop : processLoop mf false true cands1 [] answers
      = .ok (results, ufs, events, a :: ans1))
    (hq : strLower a = "q") :
    update_packages mf update_info false ac true answers comp
      = .error (0, results,
          events ++ [Event.prompt pkg.name pkg.current_version pkg.latestStr])
      ∧ results.length = cands1.length := by
  have hlen := processLoop_ok_length _ _ _ _ _ _ _ _ _ _ hloop
  have hsingle : update_single_package mf fp pkg false true (a :: ans1)
      = .error (0, [Event.prompt pkg.name pkg.current_version pkg.latestStr]) := by
    simp [update_single_package, hq]
  have htail : processLoop mf false true ((fp, pkg) :: cands2) ufs (a :: ans1)
      = .error (0, [],
          [Event.prompt pkg.name pkg.current_version pkg.latestStr]) := by
    simp only [processLoop, hsingle]
  have hall := processLoop_append_error mf false true cands1 ((fp, pkg) :: cands2)
    [] answers results ufs events (a :: ans1) 0 []
    [Event.prompt pkg.name pkg.current_version pkg.latestStr] hloop htail
  refine ⟨?_, hlen⟩
  simp only [update_packages]
  split
  · rename_i he
    exfalso
    cases hui : update_info with
    | nil =>
      rw [hui] at hflat
      simp [flattenUpdates] at hflat
    | cons b tl =>
      rw [hui] at he
      simp at he
  · split
    · rename_i he
      exfalso
      cases hx : flattenUpdates update_info with
      | nil =>
        rw [hx] at hflat
        simp at hflat
      | cons b tl =>
        rw [hx] at he
        simp at he
    · rw [hflat, hall]
      simp

theorem quit_terminates_run_witness :
    (update_packages mutTrue [("base.in", [pkgA, pkgB])] false true true
        ["y", "q"] .exitZero
      = .error (0, [⟨"requests", "2.28.0", "2.31.0", "base.in", true, none⟩],
          [Event.prompt "requests" "2.28.0" "2.31.0",
           Event.mutate "base.in" "requests" "2.31.0"]
            ++ [Event.prompt pkgB.name pkgB.current_version pkgB.latestStr]))
      ∧ ([⟨"requests", "2.28.0", "2.31.0", "base.in", true, none⟩]
            : List UpdateResult).length
          = ([("base.in", pkgA)] : List (String × PackageInfo)).length :=
  quit_terminates_run mutTrue [("base.in", [pkgA, pkgB])] true .exitZero
    [("base.in", pkgA)] "base.in" pkgB [] ["y", "q"]
    [⟨"requests", "2.28.0", "2.31.0", "base.in", true, none⟩] ["base.in"]
    [Event.prompt "requests" "2.28.0" "2.31.0",
     Event.mutate "base.in" "requests" "2.31.0"]
    "q" [] (by rfl) (by rfl) (by rfl)

/-- C4: with `dry_run = true`, `update_packages` issues no event at all —
no prompt, no call to the file-mutation collaborator, no compile — and
every updatable candidate yields an applied-style Outcome (`success =
true`, old and new versions copied from the candidate), so no declaration
file is changed. -/
theorem dry_run_frame (mf : MutFn)
    (update_info : List (String × List PackageInfo)) (ac int : Bool)
    (answers : List String) (comp : CompileOutcome) :
    update_packages mf update_info true ac int answers comp
      = .ok (mkSummary ((flattenUpdates update_info).map dryOutcome), []) := by
  cases hui : update_info with
  | nil => rfl
  | cons a tl =>
    simp only [update_packages]
    rw [if_neg (by simp)]
    by_cases hf : (flattenUpdates (a :: tl)).isEmpty = true
    · rw [if_pos hf]
      have hnil : flattenUpdates (a :: tl) = [] := by
        cases hx : flattenUpdates (a :: tl) with
        | nil => rfl
        | cons b l2 =>
          rw [hx] at hf
          simp at hf
      rw [hnil]
      rfl
    · rw [if_neg hf, processLoop_dry]
      simp

/-- C5: when no requirements file was found or no candidate has
`has_update`, `update_packages` returns the all-zero Summary with an
empty outcome list immediately, performing no prompt, mutation or
compile (empty event trace — the Decision Protocol and the compile step
are never invoked). -/
theorem zero_candidates_zero_summary (mf : MutFn)
    (update_info : List (String × List PackageInfo)) (dr ac int : Bool)
    (answers : List String) (comp : CompileOutcome)
    (h : flattenUpdates update_info = []) :
    update_packages mf update_info dr ac int answers comp
      = .ok (⟨0, 0, 0, 0, []⟩, []) := by
  simp only [update_packages]
  split
  · rfl
  · rw [h]
    rfl

theorem zero_candidates_zero_summary_witness :
    update_packages mutTrue [("base.in", [pkgC])] false true true [] .exitZero
      = .ok (⟨0, 0, 0, 0, []⟩, []) :=
  zero_candidates_zero_summary mutTrue [("base.in", [pkgC])] false true true
    [] .exitZero (by rfl)

/-- C10: every Outcome the Decision Protocol returns — in the dry-run,
user-skip, apply-success and apply-failure branches alike — has
`success = true` exactly when `error_message` is absent, and carries the
candidate's name, current version, latest version and file path. -/
theorem decision_outcome_wellformed (mf : MutFn) (fp : String)
    (pkg : PackageInfo) (dr int : Bool) (answers : List String)
    (r : UpdateResult) (evs : List Event) (ans1 : List String)
    (h : update_single_package mf fp pkg dr int answers = .ok (r, evs, ans1)) :
    (r.success = true ↔ r.error_message = none)
      ∧ r.package_name = pkg.name
      ∧ r.old_version = pkg.current_version
      ∧ r.new_version = pkg.latestStr
      ∧ r.file_path = fp := by
  have hx := update_single_package_ok_shape mf fp pkg dr int answers r evs ans1 h
  exact ⟨hx.1, hx.2.1, hx.2.2.1, hx.2.2.2.1, hx.2.2.2.2.1⟩

theorem decision_outcome_wellformed_witness :
    ((true = true) ↔ ((none : Option String) = none))
      ∧ "requests" = pkgA.name
      ∧ "2.28.0" = pkgA.current_version
      ∧ "2.31.0" = pkgA.latestStr
      ∧ "base.in" = "base.in" :=
  decision_outcome_wellformed mutTrue "base.in" pkgA true true []
    ⟨"requests", "2.28.0", "2.31.0", "base.in", true, none⟩ [] [] (by rfl)

end PyPIUpdater

namespace PyPIUpdater

theorem failed_message_truthy (pkg : PackageInfo) (fp : String) :
    pyTruthy (some ("Failed to update " ++ pkg.name ++ " in " ++ fp)) = true := by
  simp only [pyTruthy]
  rw [bne_iff_ne]
  intro hc
  have h := congrArg String.length hc
  simp only [String.length_append] at h
  have h17 : ("Failed to update " : String).length = 17 := rfl
  have h4 : (" in " : String).length = 4 := rfl
  have h0 : ("" : String).length = 0 := rfl
  rw [h17, h4, h0] at h
  omega

theorem any_success_eq_not_all_not (rs : List UpdateResult) :
    (rs.any fun r => r.success) = !rs.all fun r => !r.success := by
  induction rs with
  | nil => rfl
  | cons r t ih => simp [List.any_cons, List.all_cons, ih, Bool.not_and]

/-- C6: when the file-mutation collaborator reports failure for one
candidate, that candidate's Outcome has `success = false` and an error
message naming the package and file, the loop still processes every
remaining candidate unchanged, and the Outcome adds one to the count the
Summary reports as `failed`. -/
theorem mutation_failure_is_local (mf : MutFn) (fp : String)
    (pkg : PackageInfo) (cands2 : List (String × PackageInfo))
    (ufs answers : List String) (rs : List UpdateResult) (ufs2 : List String)
    (evs : List Event) (ans2 : List String)
    (hmut : mf fp pkg.name pkg.latestStr = false)
    (hrest : processLoop mf false false cands2 ufs answers
      = .ok (rs, ufs2, evs, ans2)) :
    processLoop mf false false ((fp, pkg) :: cands2) ufs answers
      = .ok (failedOutcome fp pkg :: rs, ufs2,
          Event.mutate fp pkg.name pkg.latestStr :: evs, ans2)
      ∧ (failedOutcome fp pkg).success = false
      ∧ (failedOutcome fp pkg).error_message
          = some ("Failed to update " ++ pkg.name ++ " in " ++ fp)
      ∧ countFailed (failedOutcome fp pkg :: rs) = countFailed rs + 1 := by
  have hsingle : update_single_package mf fp pkg false false answers
      = .ok (failedOutcome fp pkg,
          [Event.mutate fp pkg.name pkg.latestStr], answers) := by
    simp [update_single_package, applyUpdate, hmut, failedOutcome]
  refine ⟨?_, rfl, rfl, ?_⟩
  · simp only [processLoop, hsingle, failedOutcome, Bool.false_and,
      Bool.false_eq_true, if_false, hrest, List.singleton_append]
  · simp [countFailed, List.filter_cons, failedOutcome,
      failed_message_truthy pkg fp]

theorem mutation_failure_is_local_witness :
    (processLoop mutFalse false false [("base.in", pkgA), ("base.in", pkgB)]
        [] []
      = .ok ([failedOutcome "base.in" pkgA, failedOutcome "base.in" pkgB], [],
          [Event.mutate "base.in" "requests" "2.31.0",
           Event.mutate "base.in" "click" "8.1.7"], []))
      ∧ (failedOutcome "base.in" pkgA).success = false
      ∧ (failedOutcome "base.in" pkgA).error_message
          = some ("Failed to update " ++ pkgA.name ++ " in " ++ "base.in")
      ∧ countFailed (failedOutcome "base.in" pkgA
            :: [failedOutcome "base.in" pkgB])
          = countFailed [failedOutcome "base.in" pkgB] + 1 :=
  mutation_failure_is_local mutFalse "base.in" pkgA [("base.in", pkgB)] [] []
    [failedOutcome "base.in" pkgB] [] [Event.mutate "base.in" "click" "8.1.7"]
    [] (by rfl) (by rfl)

/-- C7: a run that returns a Summary contains exactly one compile event
when `auto_compile` is set, `dry_run` is false and some Outcome was
applied, and none otherwise; and replacing the compile collaborator's
outcome (non-zero exit, timeout, missing script, exception) leaves the
returned Summary unchanged and the run successful. -/
theorem compile_invoked_once_iff (mf : MutFn)
    (update_info : List (String × List PackageInfo)) (dr ac int : Bool)
    (answers : List String) (comp comp2 : CompileOutcome)
    (s : UpdateSummary) (evs : List Event)
    (h : update_packages mf update_info dr ac int answers comp = .ok (s, evs)) :
    ((evs.filter Event.isCompile).length
        = if ac && !dr && (s.updates.any fun r => r.success) then 1 else 0)
      ∧ summaryOf (update_packages mf update_info dr ac int answers comp2)
          = some s := by
  simp only [update_packages] at h ⊢
  split at h
  · cases h
    refine ⟨by simp, ?_⟩
    split
    · rfl
    · rename_i hc
      exact absurd ‹_› hc
  · rename_i hc1
    rw [if_neg hc1]
    split at h
    · cases h
      rename_i hc2
      rw [if_pos hc2]
      exact ⟨by simp, rfl⟩
    · rename_i hc2
      rw [if_neg hc2]
      cases hp : processLoop mf dr int (flattenUpdates update_info) [] answers with
      | error e =>
        rw [hp] at h
        cases h
      | ok x =>
        obtain ⟨results, ufs, events, ansx⟩ := x
        rw [hp] at h
        simp only [Except.ok.injEq, Prod.mk.injEq] at h
        obtain ⟨hs, hevs⟩ := h
        subst hs
        subst hevs
        refine ⟨?_, rfl⟩
        have hnc := processLoop_no_compile _ _ _ _ _ _ _ _ _ _ hp
        have hfe : events.filter Event.isCompile = [] := by
          rw [List.filter_eq_nil_iff]
          intro e he
          have hb := List.all_eq_true.mp hnc e he
          simp only [Bool.not_eq_eq_eq_not, Bool.not_true] at hb
          simp [hb]
        have hcond : (ac && !ufs.isEmpty && !dr)
            = (ac && !dr && (results.any fun r => r.success)) := by
          cases hdr : dr with
          | true => simp
          | false =>
            rw [hdr] at hp
            have hu := processLoop_ufs _ _ _ _ _ _ _ _ _ hp
            simp only [List.isEmpty_nil, Bool.true_and] at hu
            rw [hu, any_success_eq_not_all_not]
            cases ac <;> cases results.all fun r => !r.success <;> rfl
        simp only [mkSummary]
        rw [List.filter_append, hfe, List.nil_append, hcond]
        split
        · rfl
        · rfl

theorem compile_invoked_once_iff_witness :
    (([Event.mutate "base.in" "requests" "2.31.0",
        Event.compile false].filter Event.isCompile).length
        = if true && !false
            && (([⟨"requests", "2.28.0", "2.31.0", "base.in", true, none⟩]
                : List UpdateResult).any fun r => r.success)
          then 1 else 0)
      ∧ summaryOf
          (update_packages mutTrue [("base.in", [pkgA])] false true false []
            .timeout)
          = some ⟨1, 1, 0, 0,
              [⟨"requests", "2.28.0", "2.31.0", "base.in", true, none⟩]⟩ :=
  compile_invoked_once_iff mutTrue [("base.in", [pkgA])] false true false []
    .exitNonZero .timeout
    ⟨1, 1, 0, 0, [⟨"requests", "2.28.0", "2.31.0", "base.in", true, none⟩]⟩
    [Event.mutate "base.in" "requests" "2.31.0", Event.compile false] (by rfl)

/-- C8: on a run that returns a Summary, the CLI exits with a non-zero
status exactly when the Summary's `failed_packages` is positive, and a
`--check-only` invocation always exits with status 0 and performs no
mutation (empty event trace). -/
theorem cli_exit_nonzero_iff_failed (mf : MutFn)
    (update_info : List (String × List PackageInfo)) (dr nc ni : Bool)
    (answers : List String) (comp : CompileOutcome) (s : UpdateSummary)
    (evs : List Event)
    (h : update_packages mf update_info dr (!nc) (!ni) answers comp
      = .ok (s, evs)) :
    ((cliRun mf update_info false dr nc ni answers comp).1 ≠ 0
        ↔ 0 < s.failed_packages)
      ∧ cliRun mf update_info true dr nc ni answers comp = (0, []) := by
  constructor
  · simp only [cliRun, Bool.false_eq_true, if_false, h]
    split
    · rename_i hgt
      simp only [ne_eq, OfNat.ofNat_ne_zero, not_false_eq_true, true_iff]
      omega
    · rename_i hgt
      simp only [ne_eq, not_true_eq_false, false_iff]
      omega
  · simp [cliRun]

theorem cli_exit_nonzero_iff_failed_witness :
    ((cliRun mutFalse [("base.in", [pkgA])] false false false true []
        .exitZero).1 ≠ 0
        ↔ 0 < (UpdateSummary.mk 1 0 1 0
            [failedOutcome "base.in" pkgA]).failed_packages)
      ∧ cliRun mutFalse [("base.in", [pkgA])] true false false true []
          .exitZero = (0, []) :=
  cli_exit_nonzero_iff_failed mutFalse [("base.in", [pkgA])] false false true
    [] .exitZero ⟨1, 0, 1, 0, [failedOutcome "base.in" pkgA]⟩
    [Event.mutate "base.in" "requests" "2.31.0"] (by rfl)

/-- C9: only candidates whose `has_update` flag is true are flattened
into the update list `update_packages` processes; such a candidate has a
defined latest version that differs from its current version (spec-model
of the flag, the registry client being outside the sources). -/
theorem candidates_have_updates (update_info : List (String × List PackageInfo))
    (fp : String) (pkg : PackageInfo)
    (h : (fp, pkg) ∈ flattenUpdates update_info) :
    pkg.has_update = true
      ∧ pkg.latest_version.isSome = true
      ∧ pkg.latest_version ≠ some pkg.current_version := by
  simp only [flattenUpdates, List.mem_flatMap, List.mem_map,
    List.mem_filter] at h
  obtain ⟨fps, -, p, ⟨-, hupd⟩, heq⟩ := h
  obtain ⟨-, hp⟩ := Prod.mk.injEq .. ▸ heq
  subst hp
  refine ⟨hupd, ?_, ?_⟩
  · unfold PackageInfo.has_update at hupd
    cases hl : p.latest_version with
    | none =>
      rw [hl] at hupd
      cases hupd
    | some v => simp
  · unfold PackageInfo.has_update at hupd
    cases hl : p.latest_version with
    | none =>
      rw [hl] at hupd
      cases hupd
    | some v =>
      rw [hl] at hupd
      intro hcontra
      injection hcontra with hv
      rw [hv] at hupd
      simp at hupd

theorem candidates_have_updates_witness :
    pkgA.has_update = true
      ∧ pkgA.latest_version.isSome = true
      ∧ pkgA.latest_version ≠ some pkgA.current_version :=
  candidates_have_updates [("base.in", [pkgA, pkgC])] "base.in" pkgA (by decide)

end PyPIUpdater
